import Mathlib

/-!
Verification of the Host Process Control Layer of the minecraft-manager
repository: a shallow embedding of `src/host_service.py` (the `Result`
envelope, the screen session backend, and the `ScreenPlatformService`
controller) together with `sanitize_filename` from `src/utils.py`,
followed by theorems settling the specification claims.

Python strings are modelled as `List Char`; the outcome of the external
`run` command is modelled by a `CompletedProcess` record; time in the
`wait_term` poll loop is modelled by the number of completed sleep
intervals, and the loop itself by a fuel-indexed step function whose
`none` outcome means "still looping after that much fuel".
-/

namespace MCM

/-- Character class of Python `str.strip()` / `\s` (ASCII whitespace). -/
def isSpace (c : Char) : Bool :=
  c = ' ' || c = '\t' || c = '\n' || c = '\r' || c = '\x0b' || c = '\x0c'

/-- Characters matched by the `sanitize_filename` regex `[<>:"/\\|?*\s]+`. -/
def isIllegal (c : Char) : Bool :=
  c = '<' || c = '>' || c = ':' || c = '"' || c = '/' || c = '\\' ||
  c = '|' || c = '?' || c = '*' || isSpace c

/-- Python `str.lower()` (ASCII range, as used on session names here). -/
def pyLower (s : List Char) : List Char := s.map Char.toLower

/-- Python `str.strip(" ")`: remove leading and trailing space characters. -/
def stripSpaces (s : List Char) : List Char :=
  ((s.dropWhile (fun c => c = ' ')).reverse.dropWhile (fun c => c = ' ')).reverse

/-- Python `str.strip()`: remove leading and trailing whitespace. -/
def pyStrip (s : List Char) : List Char :=
  ((s.dropWhile isSpace).reverse.dropWhile isSpace).reverse

/-- State-machine core of `re.sub(r'[<>:"/\\|?*\s]+', "_", name)`: the flag
records whether the previous character belonged to an illegal run, so each
maximal run of illegal characters contributes a single underscore. -/
def collapseGo : Bool → List Char → List Char
  | _, [] => []
  | prev, c :: rest =>
    if isIllegal c then
      if prev then collapseGo true rest else '_' :: collapseGo true rest
    else c :: collapseGo false rest

/-- `re.sub(r'[<>:"/\\|?*\s]+', "_", name)`. -/
def collapseIllegalRuns (s : List Char) : List Char := collapseGo false s

/-- `utils.sanitize_filename`: lowercase, trim spaces, collapse every run of
illegal characters into one underscore. -/
def sanitize_filename (s : List Char) : List Char :=
  collapseIllegalRuns (stripSpaces (pyLower s))

/-- `OperationErrorType` from `host_service.py`. -/
inductive OperationErrorType where
  | command_failed
  | timeout
  | not_found
  | permission_denied
  | invalid_state
  | unknown
deriving DecidableEq, Repr

/-- The `.value` string attached to each `OperationErrorType` member. -/
def OperationErrorType.valueStr : OperationErrorType → List Char
  | .command_failed => "command_failed".data
  | .timeout => "timeout".data
  | .not_found => "not_found".data
  | .permission_denied => "permission_denied".data
  | .invalid_state => "invalid_state".data
  | .unknown => "unknown".data

/-- The `OperationError` dataclass: `return_code`, `stderr` and `stdout`
default to `None` in Python; here they are always passed explicitly. -/
structure OperationError where
  error_type : OperationErrorType
  message : List Char
  return_code : Option Int
  stderr : Option (List Char)
  stdout : Option (List Char)
deriving DecidableEq, Repr

/-- `OperationError.__str__`: the type's value and the message, then the exit
code when present, then stderr when truthy, joined by single spaces. -/
def OperationError.toText (e : OperationError) : List Char :=
  (e.error_type.valueStr ++ ": ".data ++ e.message)
  ++ (match e.return_code with
      | some rc => " (exit code: ".data ++ (toString rc).data ++ ")".data
      | none => [])
  ++ (match e.stderr with
      | some s => if s = [] then [] else " stderr: ".data ++ s
      | none => [])

/-- The `Result` dataclass: both fields are `Optional` in Python (defaulting
to `None`); the constructors below are the only ways the source builds one. -/
structure Result (T : Type) where
  value : Option T
  error : Option OperationError
deriving DecidableEq

/-- `Result.is_success`: the operation succeeded (`error is None`). -/
def Result.is_success {T : Type} (r : Result T) : Bool := r.error.isNone

/-- `Result.is_error`: the operation failed (`error is not None`). -/
def Result.is_error {T : Type} (r : Result T) : Bool := r.error.isSome

/-- `Result.success(value)`. -/
def Result.success {T : Type} (v : T) : Result T := ⟨some v, none⟩

/-- `Result.failure(error)`. -/
def Result.failure {T : Type} (e : OperationError) : Result T := ⟨none, some e⟩

/-- `Result.unwrap`: the raised `ValueError` is modelled as `Except.error`
carrying the exception message; the returned `value` slot is an `Option T`
because the Python field is `T | None`. -/
def Result.unwrap {T : Type} (r : Result T) : Except (List Char) (Option T) :=
  match r.error with
  | some e => Except.error ("Cannot unwrap failed result: ".data ++ e.toText)
  | none => Except.ok r.value

/-- `Result.unwrap_or(default)`: the default stands for the same `T | None`
dynamic slot as `value`. -/
def Result.unwrap_or {T : Type} (r : Result T) (default : Option T) : Option T :=
  match r.error with
  | some _ => default
  | none => r.value

/-- Outcome of `subprocess.run(cmd, capture_output=True, text=True)`. -/
structure CompletedProcess where
  returncode : Int
  stdout : List Char
  stderr : List Char
deriving DecidableEq, Repr

/-- Accumulator loop of `str.splitlines` (newline-separated output, as
produced by `screen -ls`): a trailing newline yields no extra empty line. -/
def splitlinesGo : List Char → List Char → List (List Char)
  | [], acc => if acc.isEmpty then [] else [acc.reverse]
  | c :: rest, acc =>
    if c = '\n' then acc.reverse :: splitlinesGo rest []
    else splitlinesGo rest (c :: acc)

/-- `str.splitlines()`. -/
def splitlines (s : List Char) : List (List Char) := splitlinesGo s []

/-- `str.split(".")`: split on every dot, keeping empty components. -/
def splitOnDot : List Char → List (List Char)
  | [] => [[]]
  | c :: rest =>
    if c = '.' then [] :: splitOnDot rest
    else
      match splitOnDot rest with
      | [] => [[c]]
      | h :: t => (c :: h) :: t

/-- `ScreenService.trim_id`: `name.split(".")[1] if "." in name else name`. -/
def trim_id (name : List Char) : List Char :=
  if name.contains '.' then (splitOnDot name).getD 1 [] else name

/-- The first whitespace-delimited field, `line.split()[0]`, of an already
stripped non-empty line. -/
def firstField (line : List Char) : List Char :=
  line.takeWhile (fun c => !(isSpace c))

/-- The parsing loop of `LinuxScreenService.list` over `lines[1:-1]`: strip
each line, skip the empty ones, keep the first field, optionally trimmed. -/
def listLoop (trim : Bool) : List (List Char) → List (List Char)
  | [] => []
  | line :: rest =>
    let l := pyStrip line
    if l = [] then listLoop trim rest
    else (if trim then trim_id (firstField l) else firstField l) :: listLoop trim rest

/-- `LinuxScreenService.list`, as a function of the `screen -ls` outcome:
exit codes other than 0 and 1 fail, fewer than two output lines give an
empty listing, and otherwise the header and footer lines are dropped and
the remaining lines parsed. -/
def screen_list (trim : Bool) (cp : CompletedProcess) : Result (List (List Char)) :=
  let lines := splitlines cp.stdout
  if cp.returncode ≠ 0 ∧ cp.returncode ≠ 1 then
    Result.failure
      ⟨.command_failed, "Failed to list screen sessions".data,
       some cp.returncode, some cp.stderr, some cp.stdout⟩
  else if lines.length < 2 then Result.success []
  else Result.success (listLoop trim ((lines.drop 1).dropLast))

/-- The argv built by `LinuxScreenService.create`:
`["screen", "-dmS", normalized_name, "bash", "-c", command]`. -/
def create_args (name command : List Char) : List (List Char) :=
  ["screen".data, "-dmS".data, sanitize_filename name, "bash".data, "-c".data, command]

/-- `ScreenService.exists` (default implementation), as a function of the
outcome of `self.list(trim_id=True)`: a failed listing yields `False`. -/
def screen_exists (name : List Char) (listRes : Result (List (List Char))) : Bool :=
  if listRes.is_error then false
  else
    match listRes.value with
    | some sessions => sessions.contains name
    -- Unreachable for constructor-built results (Python would raise on None).
    | none => false

/-- Decimal-style rendering of the timeout value, standing for Python's
`f"{timeout}"` (the integral case, the only one the controller uses). -/
def ratRepr (t : ℚ) : List Char :=
  if t.den = 1 then (toString t.num).data
  else (toString t.num).data ++ '/' :: (toString t.den).data

/-- The `Timeout` error built by `LinuxScreenService.wait_term`; `timeRepr`
stands for the `f"{timeout}"` rendering of the timeout value. -/
def timeout_error (name : List Char) (timeRepr : List Char) : OperationError :=
  ⟨.timeout,
   "Timeout waiting for screen session '".data ++ name ++
     "' to terminate after ".data ++ timeRepr ++ "s".data,
   none, none, none⟩

/-- The rational `n/1`, written with an explicit constructor so that closed
evaluations of the poll loop reduce inside the kernel. -/
def natToRat (n : Nat) : ℚ :=
  ⟨Int.ofNat n, 1, Nat.one_ne_zero, Nat.coprime_one_right _⟩

theorem natToRat_cast (n : Nat) : natToRat n = (n : ℚ) := by
  apply Rat.ext <;> simp [natToRat]

/-- One-step-indexed embedding of the `LinuxScreenService.wait_term` loop.
`ex n` is what `self.exists(name)` reports at the n-th poll; the elapsed
monotonic time at the n-th poll is `n * poll` (n sleeps have completed);
`fuel` bounds the number of loop iterations, and `none` means the loop is
still running after `fuel` iterations. (Written with a bare `Nat.rec` so
that closed calls evaluate by kernel reduction.) -/
def wait_term_go (ex : Nat → Bool) (name : List Char) (poll : ℚ)
    (timeout : Option ℚ) (fuel : Nat) : Nat → Option (Result Unit) :=
  Nat.rec (motive := fun _ => Nat → Option (Result Unit))
    (fun _ => none)
    (fun _ ih n =>
      if ex n = false then some (Result.success ())
      else
        match timeout with
        | some t =>
          if t < natToRat n * poll then
            some (Result.failure (timeout_error name (ratRepr t)))
          else ih (n + 1)
        | none => ih (n + 1))
    fuel

theorem wait_term_go_zero (ex : Nat → Bool) (name : List Char) (poll : ℚ)
    (timeout : Option ℚ) (n : Nat) :
    wait_term_go ex name poll timeout 0 n = none := rfl

theorem wait_term_go_succ (ex : Nat → Bool) (name : List Char) (poll : ℚ)
    (timeout : Option ℚ) (fuel n : Nat) :
    wait_term_go ex name poll timeout (fuel + 1) n =
      (if ex n = false then some (Result.success ())
       else
         match timeout with
         | some t =>
           if t < natToRat n * poll then
             some (Result.failure (timeout_error name (ratRepr t)))
           else wait_term_go ex name poll timeout fuel (n + 1)
         | none => wait_term_go ex name poll timeout fuel (n + 1)) := rfl

/-- `LinuxScreenService.wait_term`: the name is normalized before the loop
starts, and the loop polls from step 0. -/
def wait_term (ex : Nat → Bool) (name : List Char) (poll : ℚ)
    (timeout : Option ℚ) (fuel : Nat) : Option (Result Unit) :=
  wait_term_go ex (sanitize_filename name) poll timeout fuel 0

/-- `LinuxScreenService.exists`: normalize, then the base-class check. -/
def linux_exists (name : List Char) (listRes : Result (List (List Char))) : Bool :=
  screen_exists (sanitize_filename name) listRes

/-- `HostDescriptor` dataclass. -/
structure HostDescriptor where
  name : List Char
  host_location : List Char
deriving DecidableEq, Repr

/-- `ScreenPlatformService.__prefix`, set to `"mcm"` in the constructor. -/
def prefix_chars : List Char := ['m', 'c', 'm']

/-- `ScreenPlatformService.__to_local_name`: `f"{prefix}-{base}"`. -/
def to_local_name (base : List Char) : List Char := prefix_chars ++ '-' :: base

/-- `ScreenPlatformService.__strip_local_name`: drop `len(prefix) + 1`
leading characters. -/
def strip_local_name (base : List Char) : List Char :=
  base.drop (prefix_chars.length + 1)

/-- `ScreenPlatformService.__list_local_sessions`, as a function of the
backend `list()` outcome: forward a failure, otherwise keep the sessions
whose trimmed name starts with the prefix (`"mcm"`, without the dash). -/
def list_local_sessions (listRes : Result (List (List Char))) :
    Result (List (List Char)) :=
  if listRes.is_error then listRes
  else
    match listRes.value with
    | some sessions =>
      Result.success (sessions.filter (fun s => prefix_chars.isPrefixOf (trim_id s)))
    -- Unreachable for constructor-built results (Python would raise on None).
    | none => Result.success []

/-- `ScreenPlatformService.is_server_running`, as a function of the outcome
of the backend `list(trim_id=True)` call made by `exists`. -/
def is_server_running (name : List Char) (listRes : Result (List (List Char))) : Bool :=
  screen_exists (to_local_name name) listRes

/-- `ScreenPlatformService.start_server`: the argv handed to the command
runner by the backend `create` call it delegates to. -/
def start_server_args (name workdir entrypoint : List Char) : List (List Char) :=
  create_args (to_local_name name) ("cd ".data ++ workdir ++ " && ".data ++ entrypoint)

/-- A call made by `stop_server` into its `ScreenService`. -/
inductive ScreenCall where
  | stuff_call : List Char → List Char → ScreenCall
  | wait_term_call : List Char → ℚ → Option ℚ → ScreenCall
deriving DecidableEq

/-- `ScreenPlatformService.stop_server`, with the backend's two possible
responses supplied as oracles; the second component records, in order, the
calls made into the backend. -/
def stop_server (name : List Char) (stuff_result wait_result : Result Unit) :
    Result Unit × List ScreenCall :=
  let local_name := to_local_name name
  if stuff_result.is_error then
    (stuff_result, [ScreenCall.stuff_call local_name "stop".data])
  else
    (wait_result,
     [ScreenCall.stuff_call local_name "stop".data,
      ScreenCall.wait_term_call local_name 1 (some 10)])

/-- `ScreenPlatformService.list_running`, as a function of the backend
`list()` outcome. -/
def list_running (listRes : Result (List (List Char))) : Result (List HostDescriptor) :=
  let sessions_result := list_local_sessions listRes
  match sessions_result.error, sessions_result.value with
  | some e, _ => Result.failure e
  | none, some sessions =>
    Result.success (sessions.map (fun s =>
      ⟨strip_local_name (trim_id s), "screen@".data ++ s⟩))
  -- Unreachable for constructor-built results (Python would raise on None).
  | none, none => Result.success []

/-! Spec-side definitions, written from the specification's wording, to be
compared with the source-side definitions above. -/

/-- Spec-side token trimming, as amended: the name between the first and the
second dot (the second dot-separated field); a token with no dot is kept
whole. -/
def spec_trim_token (tok : List Char) : List Char :=
  if tok.contains '.' then
    ((tok.dropWhile (fun c => c != '.')).drop 1).takeWhile (fun c => c != '.')
  else tok

/-- The trimming rule exactly as the claim words it: strip the prefix up to
and including the first dot, keeping everything after it; a token with no
dot is kept whole. -/
def claim_trim_token (tok : List Char) : List Char :=
  if tok.contains '.' then (tok.dropWhile (fun c => c != '.')).drop 1
  else tok

/-- Spec-side treatment of one listing line: strip it, skip it when blank,
otherwise keep its first whitespace-delimited field, optionally trimmed. -/
def specLineParse (trim : Bool) (line : List Char) : Option (List Char) :=
  let l := pyStrip line
  if l = [] then none
  else some (if trim then spec_trim_token (firstField l) else firstField l)

/-- Spec-side listing parse: discard the first and last lines, skip blank
lines, take the first whitespace-delimited field, optionally trim. -/
def spec_parse_listing (trim : Bool) (stdout : List Char) : List (List Char) :=
  (((splitlines stdout).drop 1).dropLast).filterMap (specLineParse trim)

/-- One listing line under the claimed (strip-after-first-dot) trimming. -/
def claimLineParse (trim : Bool) (line : List Char) : Option (List Char) :=
  let l := pyStrip line
  if l = [] then none
  else some (if trim then claim_trim_token (firstField l) else firstField l)

/-- The listing parse with the claimed (strip-after-first-dot) trimming. -/
def claim_parse_listing (trim : Bool) (stdout : List Char) : List (List Char) :=
  (((splitlines stdout).drop 1).dropLast).filterMap (claimLineParse trim)

/-- Spec-side collapse, as the sanitization rule is worded: every maximal
run of illegal characters becomes one single underscore. -/
def spec_collapse : List Char → List Char
  | [] => []
  | c :: rest =>
    if isIllegal c then '_' :: spec_collapse (rest.dropWhile isIllegal)
    else c :: spec_collapse rest
termination_by l => l.length
decreasing_by
  · exact Nat.lt_succ_of_le (List.Sublist.length_le (List.dropWhile_sublist _))
  · exact Nat.lt_succ_self _

/-! Helper lemmas. -/

theorem splitOnDot_ne_nil (l : List Char) : splitOnDot l ≠ [] := by
  match l with
  | [] => simp [splitOnDot]
  | c :: rest =>
    unfold splitOnDot
    split
    · simp
    · split <;> simp

theorem splitOnDot_head (l : List Char) :
    (splitOnDot l).head? = some (l.takeWhile (fun c => c != '.')) := by
  induction l with
  | nil => simp [splitOnDot, List.takeWhile]
  | cons c rest ih =>
    unfold splitOnDot
    by_cases hc : c = '.'
    · subst hc
      simp [List.takeWhile]
    · simp only [if_neg hc]
      cases hrest : splitOnDot rest with
      | nil => exact absurd hrest (splitOnDot_ne_nil rest)
      | cons h t =>
        rw [hrest] at ih
        simp only [List.head?] at ih
        have hh : h = rest.takeWhile (fun c => c != '.') := by
          injection ih
        have hbne : (c != '.') = true := by simpa using hc
        simp [List.takeWhile, hbne, hh]

theorem trim_id_eq_spec (tok : List Char) : trim_id tok = spec_trim_token tok := by
  unfold trim_id spec_trim_token
  by_cases hdot : tok.contains '.'
  · simp only [if_pos hdot]
    induction tok with
    | nil => simp at hdot
    | cons c rest ih =>
      by_cases hc : c = '.'
      · subst hc
        unfold splitOnDot
        simp only [if_pos rfl]
        have hhead := splitOnDot_head rest
        cases hrest : splitOnDot rest with
        | nil => exact absurd hrest (splitOnDot_ne_nil rest)
        | cons h t =>
          rw [hrest] at hhead
          simp only [List.head?] at hhead
          have hh : h = rest.takeWhile (fun c => c != '.') := by injection hhead
          simp [List.getD, List.dropWhile, hh]
      · have hcontains : rest.contains '.' := by
          rcases (by simpa using hdot : '.' = c ∨ '.' ∈ rest) with h | h
          · exact absurd h.symm hc
          · simpa using h
        unfold splitOnDot
        simp only [if_neg hc]
        cases hrest : splitOnDot rest with
        | nil => exact absurd hrest (splitOnDot_ne_nil rest)
        | cons h t =>
          have := ih hcontains
          rw [hrest] at this
          have hbne : (c != '.') = true := by simpa using hc
          simp only [List.dropWhile, hbne] at this ⊢
          simpa [List.getD] using this
  · have hmem : ¬ '.' ∈ tok := by simpa using hdot
    simp [hmem]

theorem listLoop_eq_filterMap (trim : Bool) (lines : List (List Char)) :
    listLoop trim lines = lines.filterMap (specLineParse trim) := by
  induction lines with
  | nil => simp [listLoop]
  | cons line rest ih =>
    unfold listLoop
    by_cases hl : pyStrip line = []
    · simp [hl, List.filterMap_cons, specLineParse, ih]
    · simp [hl, List.filterMap_cons, specLineParse, ih, trim_id_eq_spec]

theorem drop_dropLast_of_short (lines : List (List Char)) (h : lines.length < 2) :
    (lines.drop 1).dropLast = [] := by
  match lines, h with
  | [], _ => rfl
  | [a], _ => rfl

theorem collapseGo_eq_spec (s : List Char) :
    collapseGo false s = spec_collapse s ∧
    collapseGo true s = spec_collapse (s.dropWhile isIllegal) := by
  induction s with
  | nil => simp [collapseGo, spec_collapse, List.dropWhile]
  | cons c rest ih =>
    by_cases hc : isIllegal c = true
    · constructor
      · rw [collapseGo, spec_collapse]
        simp [hc, ih.2]
      · rw [collapseGo]
        simp [hc, List.dropWhile, ih.2]
    · constructor
      · rw [collapseGo, spec_collapse]
        simp [hc, ih.1]
      · rw [collapseGo]
        simp only [hc]
        rw [List.dropWhile]
        simp [hc, spec_collapse, ih.1]

theorem collapse_eq_spec (s : List Char) : collapseIllegalRuns s = spec_collapse s :=
  (collapseGo_eq_spec s).1

theorem collapseGo_all_legal (prev : Bool) (s : List Char) :
    (collapseGo prev s).all (fun c => !(isIllegal c)) = true := by
  induction s generalizing prev with
  | nil => rfl
  | cons c rest ih =>
    rw [collapseGo]
    by_cases hc : isIllegal c = true
    · simp only [hc, if_pos rfl]
      cases prev with
      | true => simpa using ih true
      | false =>
        have h2 : isIllegal '_' = false := by decide
        simpa [List.all_cons, h2] using ih true
    · simp only [hc]
      have hcf : isIllegal c = false := by simpa using hc
      simpa [List.all_cons, hcf] using ih false

theorem sanitize_all_legal (s : List Char) :
    (sanitize_filename s).all (fun c => !(isIllegal c)) = true :=
  collapseGo_all_legal false (stripSpaces (pyLower s))

/-! Lemmas about the `wait_term` poll loop. -/

theorem wait_term_go_none (ex : Nat → Bool) (name : List Char) (poll : ℚ)
    (hex : ∀ n, ex n = true) :
    ∀ fuel n, wait_term_go ex name poll none fuel n = none := by
  intro fuel
  induction fuel with
  | zero => intro n; rfl
  | succ f ih =>
    intro n
    rw [wait_term_go_succ]
    simp [hex n, ih]

theorem wait_term_go_timeout (ex : Nat → Bool) (name : List Char) (poll t : ℚ)
    (hex : ∀ n, ex n = true) :
    ∀ fuel n r, wait_term_go ex name poll (some t) fuel n = some r →
      r = Result.failure (timeout_error name (ratRepr t)) := by
  intro fuel
  induction fuel with
  | zero => intro n r h; exact absurd h (by simp [wait_term_go_zero])
  | succ f ih =>
    intro n r h
    rw [wait_term_go_succ] at h
    simp only [hex n] at h
    by_cases ht : t < natToRat n * poll
    · simp only [if_pos ht] at h
      have := h
      simp at this
      exact this.symm
    · simp only [if_neg ht] at h
      split at h
      · simp_all
      · exact ih (n + 1) r h

theorem wait_term_go_stops (ex : Nat → Bool) (name : List Char) (poll t : ℚ)
    (m : Nat) (hstop : ex m = false ∨ t < natToRat m * poll) :
    ∀ fuel n, n ≤ m → m < n + fuel →
      (wait_term_go ex name poll (some t) fuel n).isSome = true := by
  intro fuel
  induction fuel with
  | zero => intro n h1 h2; omega
  | succ f ih =>
    intro n h1 h2
    rw [wait_term_go_succ]
    cases hxn : ex n with
    | false => simp
    | true =>
      by_cases ht : t < natToRat n * poll
      · simp [ht]
      · have hnm : n ≠ m := by
          intro he
          subst he
          rcases hstop with h | h
          · rw [h] at hxn; exact Bool.false_ne_true hxn
          · exact ht h
        have h2 := ih (n + 1) (by omega) (by omega)
        simpa [ht] using h2

theorem wait_term_go_first_gone (ex : Nat → Bool) (name : List Char) (poll t : ℚ) :
    ∀ k n fuel, (∀ m, n ≤ m → m < n + k → ex m = true) → ex (n + k) = false →
      (∀ m, n ≤ m → m < n + k → ¬ t < natToRat m * poll) → k < fuel →
      wait_term_go ex name poll (some t) fuel n = some (Result.success ()) := by
  intro k
  induction k with
  | zero =>
    intro n fuel _ hgone _ hf
    match fuel, hf with
    | f + 1, _ =>
      rw [wait_term_go_succ]
      simp only [Nat.add_zero] at hgone
      simp [hgone]
  | succ k ih =>
    intro n fuel hex hgone ht hf
    match fuel, hf with
    | f + 1, hf =>
      rw [wait_term_go_succ]
      have hn : ex n = true := hex n (Nat.le_refl n) (by omega)
      have htn : ¬ t < natToRat n * poll := ht n (Nat.le_refl n) (by omega)
      have h2 := ih (n + 1) f (fun m h1 h2 => hex m (by omega) (by omega))
        (by have h3 : n + 1 + k = n + (k + 1) := by omega
            rw [h3]; exact hgone)
        (fun m h1 h2 => ht m (by omega) (by omega)) (by omega)
      simpa [hn, htn] using h2

/-! The claims. -/

/-- C6: namespacing a session name with the fixed prefix and then stripping
is lossless — `strip(namespace(n)) = n` — hence the round-trip
`namespace(strip(namespace(n))) = namespace(n)` is stable, where `namespace`
prepends the prefix plus a dash and `strip` drops `len(prefix) + 1` leading
characters. -/
theorem claim_C6_prefix_roundtrip (n : List Char) :
    strip_local_name (to_local_name n) = n ∧
    to_local_name (strip_local_name (to_local_name n)) = to_local_name n :=
  ⟨rfl, rfl⟩

/-- C7: the session name handed to the backend `create` is normalized by the
filename-sanitization rule (lowercase, trim, collapse every run of the
characters `<>:"/\\|?*` and whitespace into a single underscore, so the
result contains no such character), and the command the session created by
`start_server(name, workdir, entrypoint)` runs is exactly
`cd <workdir> && <entrypoint>`. -/
theorem claim_C7_create_normalization (name command workdir entrypoint : List Char) :
    ((create_args name command).getD 2 [] = sanitize_filename name) ∧
    (sanitize_filename name = spec_collapse (stripSpaces (pyLower name))) ∧
    ((sanitize_filename name).all (fun c => !(isIllegal c)) = true) ∧
    ((create_args name command).getD 5 [] = command) ∧
    (start_server_args name workdir entrypoint =
      create_args (to_local_name name) ("cd ".data ++ workdir ++ " && ".data ++ entrypoint)) :=
  ⟨rfl, collapse_eq_spec _, sanitize_all_legal _, rfl, rfl⟩

/-- C8: a `Result` built by `Result.success`/`Result.failure` has exactly one
meaningful slot; `is_success()` holds iff `error` is `None`, `is_error()` is
its negation, `unwrap()` returns the value on a success and raises on a
failure, and `unwrap_or(default)` returns the value on a success and the
default on a failure. -/
theorem claim_C8_result_invariants (T : Type) (v : T) (e : OperationError)
    (d : Option T) (r : Result T) :
    ((Result.success v).value = some v ∧ (Result.success v).error = none) ∧
    ((Result.failure e : Result T).value = none ∧
      (Result.failure e : Result T).error = some e) ∧
    (r.is_success = true ↔ r.error = none) ∧
    (r.is_error = !r.is_success) ∧
    ((Result.success v).unwrap = Except.ok (some v)) ∧
    ((Result.failure e : Result T).unwrap =
      Except.error ("Cannot unwrap failed result: ".data ++ e.toText)) ∧
    ((Result.success v).unwrap_or d = some v) ∧
    ((Result.failure e : Result T).unwrap_or d = d) := by
  refine ⟨⟨rfl, rfl⟩, ⟨rfl, rfl⟩, ?_, ?_, rfl, rfl, rfl, rfl⟩
  · simp [Result.is_success, Option.isNone_iff_eq_none]
  · cases hr : r.error <;> simp [Result.is_error, Result.is_success, hr]

/-- C9: when the underlying `list(trim_id=True)` call fails, `exists(name)`
returns `False` (fail-open), and so `is_server_running(name)` reports the
server as not running instead of propagating the listing error. -/
theorem claim_C9_exists_fail_open (name : List Char)
    (listRes : Result (List (List Char))) (h : listRes.is_error = true) :
    screen_exists name listRes = false ∧ is_server_running name listRes = false := by
  constructor
  · simp [screen_exists, h]
  · simp [is_server_running, screen_exists, h]

/-- Witness for C9: a concrete failed listing. -/
theorem claim_C9_witness :
    screen_exists "mcm-alpha".data
        (Result.failure ⟨.command_failed, "Failed to list screen sessions".data,
          some 2, some "screen: command not found".data, some []⟩) = false ∧
    is_server_running "alpha".data
        (Result.failure ⟨.command_failed, "Failed to list screen sessions".data,
          some 2, some "screen: command not found".data, some []⟩) = false := by
  refine ⟨(claim_C9_exists_fail_open "mcm-alpha".data
    (Result.failure ⟨.command_failed, "Failed to list screen sessions".data,
      some 2, some "screen: command not found".data, some []⟩) rfl).1,
    (claim_C9_exists_fail_open "alpha".data
    (Result.failure ⟨.command_failed, "Failed to list screen sessions".data,
      some 2, some "screen: command not found".data, some []⟩) rfl).2⟩

/-- C1: `stop_server` first sends the literal text `"stop"` into the
namespaced session via `stuff`, then waits for termination with poll
interval 1 second and the fixed 10 second timeout; when the `stuff` step
fails, `wait_term` is never invoked and exactly the `stuff` error is
returned. -/
theorem claim_C1_stop_server_short_circuit (name : List Char)
    (stuff_result wait_result : Result Unit) :
    ((stop_server name stuff_result wait_result).2.head? =
      some (ScreenCall.stuff_call (to_local_name name) "stop".data)) ∧
    (stuff_result.is_error = true →
      (stop_server name stuff_result wait_result).1 = stuff_result ∧
      ∀ ln p t, ScreenCall.wait_term_call ln p t ∉
        (stop_server name stuff_result wait_result).2) ∧
    (stuff_result.is_error = false →
      stop_server name stuff_result wait_result =
        (wait_result,
         [ScreenCall.stuff_call (to_local_name name) "stop".data,
          ScreenCall.wait_term_call (to_local_name name) 1 (some 10)])) := by
  refine ⟨?_, fun h => ?_, fun h => ?_⟩
  · unfold stop_server
    split <;> rfl
  · unfold stop_server
    rw [if_pos h]
    exact ⟨rfl, by simp⟩
  · unfold stop_server
    rw [if_neg (by simp [h])]

/-- Witness for C1: a failing `stuff` outcome. -/
theorem claim_C1_witness :
    (stop_server "alpha".data
       (Result.failure ⟨.command_failed,
         "Failed to send command to screen session 'mcm-alpha'".data,
         some 1, some "No screen session found.".data, some []⟩)
       (Result.success ())).1 =
      Result.failure ⟨.command_failed,
        "Failed to send command to screen session 'mcm-alpha'".data,
        some 1, some "No screen session found.".data, some []⟩ ∧
    ScreenCall.wait_term_call (to_local_name "alpha".data) 1 (some 10) ∉
      (stop_server "alpha".data
        (Result.failure ⟨.command_failed,
          "Failed to send command to screen session 'mcm-alpha'".data,
          some 1, some "No screen session found.".data, some []⟩)
        (Result.success ())).2 := by
  have h := (claim_C1_stop_server_short_circuit "alpha".data
    (Result.failure ⟨.command_failed,
      "Failed to send command to screen session 'mcm-alpha'".data,
      some 1, some "No screen session found.".data, some []⟩)
    (Result.success ())).2.1 rfl
  exact ⟨h.1, h.2 _ _ _⟩

/-- C2, amended: an exit code of 1 (the backend's "no sessions" code) never
yields a `Failure` — it yields `Success` of the parsed session list, which
is `[]` whenever the output has fewer than two lines (the shape of the
no-sessions banner); any exit code other than 0 and 1 yields
`Failure(CommandFailed)` carrying the observed exit code and the captured
stdout and stderr. -/
theorem claim_C2_list_exit_codes (trim : Bool) (cp : CompletedProcess) :
    (cp.returncode = 1 → (screen_list trim cp).is_error = false) ∧
    (cp.returncode = 1 → (splitlines cp.stdout).length < 2 →
      screen_list trim cp = Result.success []) ∧
    (cp.returncode ≠ 0 → cp.returncode ≠ 1 →
      screen_list trim cp =
        Result.failure ⟨.command_failed, "Failed to list screen sessions".data,
          some cp.returncode, some cp.stderr, some cp.stdout⟩) := by
  refine ⟨fun h1 => ?_, fun h1 h2 => ?_, fun h0 h1 => ?_⟩
  · simp only [screen_list]
    rw [if_neg (fun hc => hc.2 h1)]
    split <;> rfl
  · simp only [screen_list]
    rw [if_neg (fun hc => hc.2 h1), if_pos h2]
  · simp only [screen_list]
    rw [if_pos ⟨h0, h1⟩]

/-- Counterexample for C2 as stated: with exit code 1 the parser still runs,
so a (contrived) outcome with exit code 1 and a three-line stdout yields a
non-empty `Success`, not `Success([])`. -/
theorem claim_C2_counterexample :
    (⟨1, "header\n1.foo y\nfooter".data, []⟩ : CompletedProcess).returncode = 1 ∧
    screen_list false ⟨1, "header\n1.foo y\nfooter".data, []⟩ =
      Result.success ["1.foo".data] ∧
    screen_list false ⟨1, "header\n1.foo y\nfooter".data, []⟩ ≠
      Result.success [] := by
  exact ⟨rfl, by decide, by decide⟩

/-- Witness for C2: the real no-sessions banner with exit code 1, and a
failing outcome with exit code 2. -/
theorem claim_C2_witness :
    screen_list false ⟨1, "No Sockets found in /run/screen/S-user.\n".data, []⟩ =
      Result.success [] ∧
    screen_list false ⟨2, [], "screen: command not found".data⟩ =
      Result.failure ⟨.command_failed, "Failed to list screen sessions".data,
        some 2, some "screen: command not found".data, some []⟩ := by
  constructor
  · exact (claim_C2_list_exit_codes false
      ⟨1, "No Sockets found in /run/screen/S-user.\n".data, []⟩).2.1 rfl (by decide)
  · exact (claim_C2_list_exit_codes false
      ⟨2, [], "screen: command not found".data⟩).2.2 (by decide) (by decide)

/-- C4, amended: `list_running` keeps exactly the sessions whose trimmed
name starts with `"mcm"` (the prefix without the dash), forms each
descriptor's name by dropping the first four characters of the trimmed name
(which strips the `"mcm-"` namespacing exactly when the name continues with
a dash), reports `host_location = "screen@<raw_session_id>"`, forwards a
backend list failure, and on `["1.mcm-alpha", "2.other-beta"]` yields
exactly `HostDescriptor{name:"alpha", host_location:"screen@1.mcm-alpha"}`. -/
theorem claim_C4_list_running (sessions : List (List Char)) (e : OperationError) :
    (list_running (Result.success sessions) =
      Result.success
        ((sessions.filter (fun s => prefix_chars.isPrefixOf (trim_id s))).map
          (fun s => ⟨(trim_id s).drop 4, "screen@".data ++ s⟩))) ∧
    (list_running (Result.failure e) = Result.failure e) ∧
    (list_running (Result.success ["1.mcm-alpha".data, "2.other-beta".data]) =
      Result.success [⟨"alpha".data, "screen@1.mcm-alpha".data⟩]) :=
  ⟨rfl, rfl, by decide⟩

/-- Counterexample for C4 as stated: the raw session `"1.mcmichael"` has a
trimmed name that does not start with the fixed namespacing prefix
`"mcm-"`, yet `list_running` keeps it (under a mangled name) instead of
filtering it out. -/
theorem claim_C4_counterexample :
    list_running (Result.success ["1.mcmichael".data]) =
      Result.success [⟨"chael".data, "screen@1.mcmichael".data⟩] ∧
    (prefix_chars ++ ['-']).isPrefixOf (trim_id "1.mcmichael".data) = false ∧
    list_running (Result.success ["1.mcmichael".data]) ≠ Result.success [] :=
  ⟨by decide, by decide, by decide⟩

/-- C5, amended: `list()` discards the first and last output lines, skips
blank lines, and takes the first whitespace-delimited field of each
remaining line; with `trim_id=true` the kept name is the token's second
dot-separated field — the text between the first and the second dot — and a
token containing no dot is kept whole. -/
theorem claim_C5_list_parsing (trim : Bool) (cp : CompletedProcess)
    (h : cp.returncode = 0 ∨ cp.returncode = 1) :
    screen_list trim cp = Result.success (spec_parse_listing trim cp.stdout) := by
  have hcond : ¬ (cp.returncode ≠ 0 ∧ cp.returncode ≠ 1) := by
    rcases h with h | h <;> simp [h]
  simp only [screen_list]
  rw [if_neg hcond]
  by_cases hlen : (splitlines cp.stdout).length < 2
  · rw [if_pos hlen]
    unfold spec_parse_listing
    rw [drop_dropLast_of_short _ hlen]
    rfl
  · rw [if_neg hlen]
    unfold spec_parse_listing
    rw [listLoop_eq_filterMap]

/-- Counterexample for C5 as stated: on the token `"12.my.server"` the code
keeps only the field between the first two dots (`"my"`), not everything
after the first dot (`"my.server"`) as the claim's trimming rule demands. -/
theorem claim_C5_counterexample :
    screen_list true ⟨0, "header\n12.my.server (Detached)\nfooter".data, []⟩ =
      Result.success ["my".data] ∧
    claim_parse_listing true "header\n12.my.server (Detached)\nfooter".data =
      ["my.server".data] ∧
    screen_list true ⟨0, "header\n12.my.server (Detached)\nfooter".data, []⟩ ≠
      Result.success
        (claim_parse_listing true "header\n12.my.server (Detached)\nfooter".data) :=
  ⟨by decide, by decide, by decide⟩

/-- Witness for C5: a successful listing outcome in the real output shape. -/
theorem claim_C5_witness :
    screen_list true
      ⟨0, "There are screens on:\n\t12345.test-session\t(Detached)\n1 Socket in /run/screen/S-user.\n".data, []⟩ =
      Result.success (spec_parse_listing true
        "There are screens on:\n\t12345.test-session\t(Detached)\n1 Socket in /run/screen/S-user.\n".data) :=
  claim_C5_list_parsing true
    ⟨0, "There are screens on:\n\t12345.test-session\t(Detached)\n1 Socket in /run/screen/S-user.\n".data, []⟩
    (Or.inl rfl)

/-- C10: a session whose trimmed name starts with `"mcm"` but not with the
`"mcm-"` separator is still kept by `list_running`, which unconditionally
drops the first four characters of the trimmed name when forming the
descriptor's name. -/
theorem claim_C10_prefix_mangling (s : List Char)
    (h1 : prefix_chars.isPrefixOf (trim_id s) = true)
    (_h2 : (prefix_chars ++ ['-']).isPrefixOf (trim_id s) = false) :
    list_running (Result.success [s]) =
      Result.success [⟨(trim_id s).drop 4, "screen@".data ++ s⟩] := by
  have hfilter :
      List.filter (fun x => prefix_chars.isPrefixOf (trim_id x)) [s] = [s] := by
    simp [List.filter, h1]
  have heq : list_running (Result.success [s]) =
      Result.success
        (([s].filter (fun x => prefix_chars.isPrefixOf (trim_id x))).map
          (fun x => ⟨strip_local_name (trim_id x), "screen@".data ++ x⟩)) := rfl
  rw [heq, hfilter]
  rfl

/-- Witness for C10: the raw session `"1.mcmichael"` appears mangled as
`"chael"`. -/
theorem claim_C10_witness :
    list_running (Result.success ["1.mcmichael".data]) =
      Result.success [⟨"chael".data, "screen@1.mcmichael".data⟩] := by
  have h := claim_C10_prefix_mangling "1.mcmichael".data (by decide) (by decide)
  rw [h]
  decide

/-- C3: `wait_term` polls the existence oracle once per poll interval (the
elapsed time at the n-th poll being `n * poll_interval`): it returns
`Success(None)` at the first poll at which the session no longer exists
(provided the timeout has not been exceeded at an earlier poll) — in
particular a session gone on the first poll yields `Success` with no
timeout error, whatever the timeout; with a timeout and a positive poll
interval it always terminates; when the session persists forever any
outcome it produces is `Failure(Timeout)`, raised once the elapsed time
exceeds the timeout; and with no timeout and a session that always exists
it loops forever (no amount of fuel makes it return). -/
theorem claim_C3_wait_term (ex : Nat → Bool) (name : List Char) (poll t : ℚ)
    (timeout : Option ℚ) (k fuel : Nat) :
    ((∀ m, m < k → ex m = true) → ex k = false →
      (∀ m, m < k → ¬ t < (m : ℚ) * poll) → k < fuel →
      wait_term ex name poll (some t) fuel = some (Result.success ())) ∧
    (ex 0 = false →
      wait_term ex name poll timeout (fuel + 1) = some (Result.success ())) ∧
    (0 < poll → ∃ fuel₀ r, wait_term ex name poll (some t) fuel₀ = some r) ∧
    ((∀ n, ex n = true) → (wait_term ex name poll (some t) fuel).isSome = true →
      wait_term ex name poll (some t) fuel =
        some (Result.failure (timeout_error (sanitize_filename name) (ratRepr t)))) ∧
    ((∀ n, ex n = true) → wait_term ex name poll none fuel = none) := by
  refine ⟨fun hex hgone ht hf => ?_, fun h0 => ?_, fun hpoll => ?_,
    fun hex hsome => ?_, fun hex => ?_⟩
  · exact wait_term_go_first_gone ex (sanitize_filename name) poll t k 0 fuel
      (fun m _ hm => hex m (by omega)) (by simpa using hgone)
      (fun m _ hm => by rw [natToRat_cast]; exact ht m (by omega)) hf
  · unfold wait_term
    rw [wait_term_go_succ]
    simp [h0]
  · obtain ⟨m, hm⟩ := exists_nat_gt (t / poll)
    have hlt : t < natToRat m * poll := by
      rw [natToRat_cast]
      have h2 := (div_lt_iff₀ hpoll).mp hm
      linarith
    have hsome := wait_term_go_stops ex (sanitize_filename name) poll t m
      (Or.inr hlt) (m + 1) 0 (by omega) (by omega)
    rcases Option.isSome_iff_exists.mp hsome with ⟨r, hr⟩
    exact ⟨m + 1, r, hr⟩
  · rcases Option.isSome_iff_exists.mp hsome with ⟨r, hr⟩
    have hrr := wait_term_go_timeout ex (sanitize_filename name) poll t hex fuel 0 r hr
    rw [wait_term] at hr ⊢
    rw [hr, hrr]
  · exact wait_term_go_none ex (sanitize_filename name) poll hex fuel 0

/-- Witness for C3: the session gone on the first poll; the always-existing
session with a timeout (termination and the Timeout outcome); the
always-existing session without a timeout. -/
theorem claim_C3_witness :
    (wait_term (fun _ => false) "srv".data 1 (some 10) 1 =
      some (Result.success ())) ∧
    (∃ fuel₀ r, wait_term (fun _ => true) "srv".data 1 (some 10) fuel₀ = some r) ∧
    (wait_term (fun _ => true) "srv".data 1 (some 2) 4 =
      some (Result.failure
        (timeout_error (sanitize_filename "srv".data) (ratRepr 2)))) ∧
    (wait_term (fun _ => true) "srv".data 1 none 7 = none) := by
  refine ⟨?_, ?_, ?_, ?_⟩
  · exact (claim_C3_wait_term (fun _ => false) "srv".data 1 10 (some 10) 0 1).1
      (fun m hm => absurd hm (by omega)) rfl
      (fun m hm => absurd hm (by omega)) (by omega)
  · exact (claim_C3_wait_term (fun _ => true) "srv".data 1 10 none 0 0).2.2.1
      (by norm_num)
  · refine (claim_C3_wait_term (fun _ => true) "srv".data 1 2 none 0 4).2.2.2.1
      (fun _ => rfl) ?_
    exact wait_term_go_stops (fun _ => true) (sanitize_filename "srv".data) 1 2 3
      (Or.inr (by rw [natToRat_cast]; norm_num)) 4 0 (by omega) (by omega)
  · exact (claim_C3_wait_term (fun _ => true) "srv".data 1 10 none 0 7).2.2.2.2
      (fun _ => rfl)

end MCM

example : MCM.sanitize_filename "My Server: Alpha".data = "my_server_alpha".data := by decide
example : (MCM.Result.success 3).unwrap = Except.ok (some 3) := rfl

example :
    MCM.screen_list false
      ⟨0, "There are screens on:\n\t12345.test-session\t(Detached)\n1 Socket in /run/screen/S-user.\n".data, [].map id⟩
      = MCM.Result.success ["12345.test-session".data] := by decide

example :
    MCM.screen_list false ⟨1, "No Sockets found in /run/screen/S-user.\n".data, []⟩
      = MCM.Result.success [] := by decide

example : MCM.trim_id "12345.test-session".data = "test-session".data := by decide
example : MCM.trim_id "12.my.server".data = "my".data := by decide
example : MCM.trim_id "noid".data = "noid".data := by decide

example :
    MCM.list_running (MCM.Result.success ["1.mcm-alpha".data, "2.other-beta".data])
      = MCM.Result.success [⟨"alpha".data, "screen@1.mcm-alpha".data⟩] := by decide

example :
    MCM.list_running (MCM.Result.success ["1.mcmichael".data])
      = MCM.Result.success [⟨"chael".data, "screen@1.mcmichael".data⟩] := by decide
